import Mathlib

/-
Verification of the invoice-manager backend (enhanced server: JWT auth,
bcrypt-hashed passwords, per-user ownership of clients and invoices).

The embedding translates the route handlers into pure Lean functions over an
explicit `State` holding the three persisted JSON collections (clients,
invoices, users).  External library primitives (bcrypt, jsonwebtoken,
express-validator) are modelled as function parameters or small concrete
predicates, as noted at each definition.  Timestamps are modelled as natural
numbers passed in by the caller; JS numbers are modelled as `Int`.
A client aggregate field that is absent (or has become NaN through arithmetic
on an absent field) is modelled as `none`; the dashboard's `x || 0` default
then corresponds to `Option.getD 0`.
-/

/-- A line item of an invoice: `{description, quantity, rate}`. -/
structure LineItem where
  description : String
  quantity : Int
  rate : Int
deriving DecidableEq

/-- A persisted client record (`data/clients.json` entry). -/
structure Client where
  id : Nat
  userId : Nat
  name : String
  email : String
  address : String
  invoiceCount : Option Int
  totalPaid : Option Int
  createdAt : Nat
deriving DecidableEq

/-- A persisted invoice record (`data/invoices.json` entry). -/
structure Invoice where
  id : Nat
  userId : Nat
  clientId : Nat
  freelancerName : String
  freelancerEmail : String
  freelancerAddress : String
  taxPercent : Int
  taxAmount : Option Int
  lineItems : List LineItem
  total : Int
  createdAt : Nat
deriving DecidableEq

/-- A persisted user record (`data/users.json` entry). -/
structure User where
  id : Nat
  name : String
  email : String
  password : String
  contactNumber : String
  address : String
  createdAt : Nat
deriving DecidableEq

/-- The three persisted collections, read and written whole-file by the server. -/
structure State where
  clients : List Client
  invoices : List Invoice
  users : List User
deriving DecidableEq

/-- A structured error response: HTTP status plus error message. -/
structure ErrResp where
  status : Nat
  error : String
deriving DecidableEq

/-- Lowercasing, written over the character list so that it evaluates by
kernel reduction. -/
def toLowerStr (s : String) : String := ⟨s.data.map Char.toLower⟩

/-- Whitespace trimming from both ends, over the character list. -/
def trimStr (s : String) : String :=
  ⟨((s.data.dropWhile Char.isWhitespace).reverse.dropWhile Char.isWhitespace).reverse⟩

/-- Character membership, over the character list. -/
def containsStr (s : String) (c : Char) : Bool := s.data.contains c

/-- String length, over the character list. -/
def strLen (s : String) : Nat := s.data.length

/-- Models the express-validator `isEmail()` check (library code; approximated
as containing an at-sign, which suffices for every claim proved here). -/
def isEmailB (s : String) : Bool := containsStr s '@'

/-- Models validator `normalizeEmail()` with its `all_lowercase` default:
the address is lowercased before comparison and storage. -/
def normalizeEmail (s : String) : String := toLowerStr s

/-- Models `.trim().isLength({min, max})` from express-validator. -/
def lenOK (s : String) (lo hi : Nat) : Bool :=
  lo ≤ strLen (trimStr s) && strLen (trimStr s) ≤ hi

/-- Models the express-validator `isMobilePhone()` check (library code;
approximated as a string of at least ten digits). -/
def isMobilePhoneB (s : String) : Bool :=
  10 ≤ strLen s && s.data.all Char.isDigit

/-- JWT payload: `jwt.sign({id, email}, secret, {expiresIn: 24h})` embeds
subject identity plus an absolute expiry (seconds). -/
structure Payload where
  id : Nat
  email : String
  exp : Nat
deriving DecidableEq

/-- A signed token: payload plus signature.  The signing primitive (HMAC over
the payload with the process-wide secret) is modelled as an abstract function
`mac : Payload → Nat` passed to `signToken`/`verifyToken`. -/
structure Token where
  payload : Payload
  sig : Nat
deriving DecidableEq

/-- Models `jwt.sign({id, email}, JWT_SECRET, {expiresIn: 24h})` at time `now`
(seconds): the embedded expiry is 24 hours from issuance. -/
def signToken (mac : Payload → Nat) (id : Nat) (email : String) (now : Nat) : Token :=
  ⟨⟨id, email, now + 24 * 3600⟩, mac ⟨id, email, now + 24 * 3600⟩⟩

/-- Models `jwt.verify(token, JWT_SECRET)`: fails when the token is missing/malformed
(`none`), the signature does not match, or the current time is past the
embedded expiry; otherwise returns the decoded payload. -/
def verifyToken (mac : Payload → Nat) (tok : Option Token) (now : Nat) : Option Payload :=
  match tok with
  | none => none
  | some t =>
    if t.sig = mac t.payload ∧ now < t.payload.exp then some t.payload else none

/-- Request body of `POST /api/register`. -/
structure RegisterReq where
  name : String
  email : String
  password : String
  contactNumber : String
  address : String
deriving DecidableEq

/-- The `POST /api/register` validation chain. -/
def validRegister (r : RegisterReq) : Bool :=
  lenOK r.name 2 100 && isEmailB r.email && 6 ≤ strLen r.password &&
    isMobilePhoneB r.contactNumber && lenOK r.address 5 500

/-- Result of `POST /api/register`. -/
inductive RegisterResult where
  | ok (token : Token) (id : Nat) (email : String) (name : String)
  | err (e : ErrResp)
deriving DecidableEq

/-- Route `POST /api/register`: validates, rejects a duplicate (normalized) email
with 409, otherwise stores the user with `password := hash(rawPassword)`
(bcrypt, modelled abstractly) and id `users.length + 1`. -/
def register (hash : String → String) (mac : Payload → Nat) (now : Nat)
    (r : RegisterReq) (st : State) : RegisterResult × State :=
  if !(validRegister r) then (.err ⟨400, "Validation failed"⟩, st)
  else
    let e := normalizeEmail r.email
    match st.users.find? (fun u => u.email == e) with
    | some _ => (.err ⟨409, "User already exists"⟩, st)
    | none =>
      let u : User :=
        ⟨st.users.length + 1, trimStr r.name, e, hash r.password,
          r.contactNumber, trimStr r.address, now⟩
      (.ok (signToken mac u.id u.email now) u.id u.email u.name,
        {st with users := st.users ++ [u]})

/-- Result of `POST /api/login`. -/
inductive LoginResult where
  | ok (token : Token) (id : Nat) (email : String) (name : String)
  | err (e : ErrResp)
deriving DecidableEq

/-- Route `POST /api/login`: validates, looks the user up by (normalized) email;
an unknown email and a failed bcrypt comparison (modelled by the abstract
`cmp`) both answer 401 "Invalid credentials"; success signs a 24h token. -/
def login (cmp : String → String → Bool) (mac : Payload → Nat) (now : Nat)
    (email password : String) (st : State) : LoginResult :=
  if !(isEmailB email && 6 ≤ strLen password) then .err ⟨400, "Validation failed"⟩
  else
    let e := normalizeEmail email
    match st.users.find? (fun u => u.email == e) with
    | none => .err ⟨401, "Invalid credentials"⟩
    | some u =>
      if cmp password u.password then
        .ok (signToken mac u.id u.email now) u.id u.email u.name
      else .err ⟨401, "Invalid credentials"⟩

/-- Request body of `POST /api/clients`. -/
structure ClientReq where
  name : String
  email : String
  address : String
deriving DecidableEq

/-- The `validateClient` chain. -/
def validClient (r : ClientReq) : Bool :=
  lenOK r.name 2 100 && isEmailB r.email && lenOK r.address 5 500

/-- Result of `POST /api/clients`. -/
inductive ClientCreateResult where
  | ok (c : Client)
  | err (e : ErrResp)
deriving DecidableEq

/-- Route `POST /api/clients`: id `clients.length + 1`, aggregates start at 0,
stamped with the caller's id. -/
def createClient (uid now : Nat) (r : ClientReq) (st : State) :
    ClientCreateResult × State :=
  if !(validClient r) then (.err ⟨400, "Validation failed"⟩, st)
  else
    let c : Client :=
      ⟨st.clients.length + 1, uid, trimStr r.name, normalizeEmail r.email,
        trimStr r.address, some 0, some 0, now⟩
    (.ok c, {st with clients := st.clients ++ [c]})

/-- Result of the delete routes. -/
inductive DeleteResult where
  | ok
  | err (e : ErrResp)
deriving DecidableEq

/-- Route `DELETE /api/clients/:id`: 404 unless some client has this id and is owned
by the caller; on success removes every client with this id (ownership is not
re-checked in the filter, faithfully to the source). -/
def deleteClient (uid cid : Nat) (st : State) : DeleteResult × State :=
  if st.clients.any (fun c => c.id == cid && c.userId == uid) then
    (.ok, {st with clients := st.clients.filter (fun c => !(c.id == cid))})
  else (.err ⟨404, "Client not found"⟩, st)

/-- Route `GET /api/clients`: answers the clients collection as read — the source
applies no owner filter here (`res.json(clients)`). -/
def listClients (_uid : Nat) (st : State) : List Client := st.clients

/-- Route `GET /api/invoices`: filtered to the caller's own invoices. -/
def listInvoices (uid : Nat) (st : State) : List Invoice :=
  st.invoices.filter (fun i => i.userId == uid)

/-- Request body of `POST /api/invoices`. -/
structure InvoiceReq where
  freelancerName : String
  freelancerEmail : String
  freelancerAddress : String
  clientId : Nat
  taxPercent : Int
  taxAmount : Option Int
  lineItems : List LineItem
  total : Int
deriving DecidableEq

/-- The `validateInvoice` chain: field-shape checks only — in particular
`clientId` is only required to be an integer ≥ 1, its existence as a client
is never checked. -/
def validInvoice (r : InvoiceReq) : Bool :=
  lenOK r.freelancerName 2 100 && isEmailB r.freelancerEmail &&
    lenOK r.freelancerAddress 5 500 && 1 ≤ r.clientId &&
    0 ≤ r.taxPercent && r.taxPercent ≤ 100 && 1 ≤ r.lineItems.length

/-- Replace the first element satisfying `p` by its image under `f`
(the JS `find`-then-mutate idiom on an array read from disk). -/
def updateFirst (p : α → Bool) (f : α → α) : List α → List α
  | [] => []
  | x :: xs => if p x then f x :: xs else x :: updateFirst p f xs

/-- Models `client.invoiceCount++; client.totalPaid += total` — arithmetic on an
absent field yields NaN in JS, modelled by `none` staying `none`. -/
def bumpClient (t : Int) (c : Client) : Client :=
  {c with invoiceCount := c.invoiceCount.map (· + 1),
          totalPaid := c.totalPaid.map (· + t)}

/-- Models `client.invoiceCount--; client.totalPaid -= total`. -/
def dropClient (t : Int) (c : Client) : Client :=
  {c with invoiceCount := c.invoiceCount.map (· - 1),
          totalPaid := c.totalPaid.map (· - t)}

/-- The invoice record built by `POST /api/invoices` with id `n`. -/
def mkInvoice (uid now n : Nat) (r : InvoiceReq) : Invoice :=
  ⟨n, uid, r.clientId, trimStr r.freelancerName, normalizeEmail r.freelancerEmail,
    trimStr r.freelancerAddress, r.taxPercent, r.taxAmount, r.lineItems, r.total, now⟩

/-- Result of `POST /api/invoices`. -/
inductive InvoiceCreateResult where
  | ok (i : Invoice)
  | err (e : ErrResp)
deriving DecidableEq

/-- Route `POST /api/invoices`: appends the invoice with id `invoices.length + 1`
unconditionally (no existence check on `clientId`), then bumps the aggregates
of the first client matching `clientId` and the caller's id, if any. -/
def createInvoice (uid now : Nat) (r : InvoiceReq) (st : State) :
    InvoiceCreateResult × State :=
  if !(validInvoice r) then (.err ⟨400, "Validation failed"⟩, st)
  else
    let inv := mkInvoice uid now (st.invoices.length + 1) r
    {fst := .ok inv,
     snd := {st with
              invoices := st.invoices ++ [inv],
              clients := updateFirst
                (fun c => c.id == inv.clientId && c.userId == uid)
                (bumpClient inv.total) st.clients}}

/-- Route `DELETE /api/invoices/:id`: 404 unless some invoice has this id and is
owned by the caller; otherwise decrements the aggregates of the first client
matching the invoice's `clientId` (owner not checked, faithfully to the
source) and removes every invoice with this id. -/
def deleteInvoice (uid iid : Nat) (st : State) : DeleteResult × State :=
  match st.invoices.find? (fun i => i.id == iid && i.userId == uid) with
  | none => (.err ⟨404, "Invoice not found"⟩, st)
  | some inv =>
    (.ok, {st with
            clients := updateFirst (fun c => c.id == inv.clientId)
              (dropClient inv.total) st.clients,
            invoices := st.invoices.filter (fun i => !(i.id == iid))})

/-- One entry of the dashboard's per-client summary. -/
structure ClientSummary where
  name : String
  email : String
  invoiceCount : Int
  totalPaid : Int
deriving DecidableEq

/-- The dashboard stats object. -/
structure DashboardStats where
  totalClients : Nat
  totalInvoices : Nat
  totalTax : Int
  totalRevenue : Int
  clientSummary : List ClientSummary
deriving DecidableEq

/-- Route `GET /api/dashboard`: aggregates over the caller's clients and invoices;
the per-client summary copies the stored denormalized fields, with `x || 0`
defaulting an absent value to 0. -/
def dashboard (uid : Nat) (st : State) : DashboardStats :=
  let ucs := st.clients.filter (fun c => c.userId == uid)
  let uis := st.invoices.filter (fun i => i.userId == uid)
  { totalClients := ucs.length
    totalInvoices := uis.length
    totalTax := uis.foldl (fun s i => s + i.taxAmount.getD 0) 0
    totalRevenue := uis.foldl (fun s i => s + i.total) 0
    clientSummary := ucs.map (fun c =>
      ⟨c.name, c.email, c.invoiceCount.getD 0, c.totalPaid.getD 0⟩) }

/-- A data access performed by a handler on a persisted collection. -/
inductive Access where
  | readClients
  | readInvoices
  | readUsers
  | writeClients
  | writeInvoices
  | writeUsers
deriving DecidableEq

/-- The protected routes (registered behind `authenticateToken`). -/
inductive ProtRoute where
  | getClients
  | postClient (r : ClientReq)
  | delClient (cid : Nat)
  | getInvoices
  | postInvoice (r : InvoiceReq)
  | delInvoice (iid : Nat)
  | getDashboard
deriving DecidableEq

/-- The body of each protected route once authentication has succeeded:
resulting state plus the trace of collection reads/writes it performs, in
source order (validation middleware rejects before the handler reads). -/
def dispatch (uid now : Nat) (r : ProtRoute) (st : State) : State × List Access :=
  match r with
  | .getClients => (st, [.readClients])
  | .postClient req =>
    if !(validClient req) then (st, [])
    else ((createClient uid now req st).2, [.readClients, .writeClients])
  | .delClient cid =>
    ((deleteClient uid cid st).2,
      .readClients ::
        (if st.clients.any (fun c => c.id == cid && c.userId == uid)
          then [.writeClients] else []))
  | .getInvoices => (st, [.readInvoices])
  | .postInvoice req =>
    if !(validInvoice req) then (st, [])
    else ((createInvoice uid now req st).2,
      [.readInvoices, .readClients, .writeInvoices] ++
        (if st.clients.any (fun c => c.id == req.clientId && c.userId == uid)
          then [.writeClients] else []))
  | .delInvoice iid =>
    ((deleteInvoice uid iid st).2,
      [.readInvoices, .readClients] ++
        match st.invoices.find? (fun i => i.id == iid && i.userId == uid) with
        | none => []
        | some inv =>
          (if st.clients.any (fun c => c.id == inv.clientId)
            then [.writeClients] else []) ++ [.writeInvoices])
  | .getDashboard => (st, [.readClients, .readInvoices])

/-- A protected request end to end: `authenticateToken` runs first (401 when
the header carries no token, 403 when verification fails) and only then does
the route body run.  Answers the error (if rejected), the resulting state and
the data-access trace. -/
def serve (mac : Payload → Nat) (now : Nat) (tok : Option Token)
    (r : ProtRoute) (st : State) : Option ErrResp × State × List Access :=
  match tok with
  | none => (some ⟨401, "Access token required"⟩, st, [])
  | some t =>
    match verifyToken mac (some t) now with
    | none => (some ⟨403, "Invalid or expired token"⟩, st, [])
    | some p =>
      let out := dispatch p.id now r st
      (none, out.1, out.2)

/-- Does invoice `i` reference client `cid`? -/
def refsClient (cid : Nat) (i : Invoice) : Bool := i.clientId == cid

/-- Count of the currently stored (undeleted) invoices referencing `cid`. -/
def countFor (cid : Nat) (invs : List Invoice) : Nat :=
  (invs.filter (refsClient cid)).length

/-- Sum of the `total` fields of the stored invoices referencing `cid`. -/
def sumFor (cid : Nat) (invs : List Invoice) : Int :=
  ((invs.filter (refsClient cid)).map Invoice.total).sum

/-- The denormalized-aggregate consistency property for client id `cid`:
every stored client with this id carries exactly the count and the sum of the
stored invoices referencing it. -/
def ledgerOK (cid : Nat) (st : State) : Bool :=
  st.clients.all (fun c => !(c.id == cid) ||
    (c.invoiceCount == some ((countFor cid st.invoices : Int)) &&
     c.totalPaid == some (sumFor cid st.invoices)))

/-- An invoice lifecycle operation, as issued by some caller. -/
inductive LedgerOp where
  | create (uid now : Nat) (r : InvoiceReq)
  | del (uid iid : Nat)
deriving DecidableEq

/-- Run one invoice operation against the state. -/
def applyOp (st : State) : LedgerOp → State
  | .create uid now r => (createInvoice uid now r st).2
  | .del uid iid => (deleteInvoice uid iid st).2

/-- Run a sequence of invoice operations against the state. -/
def applyOps (st : State) : List LedgerOp → State
  | [] => st
  | op :: ops => applyOps (applyOp st op) ops

-- Concrete data for the aggregate-drift counterexample.

/-- Client 1 owned by user 1 with consistent (zero) aggregates. -/
def cexClient : Client :=
  ⟨1, 1, "Acme Co", "acme@x.com", "1 Main Street", some 0, some 0, 0⟩

/-- A request passing `validateInvoice`, referencing client 1, with the given total. -/
def cexReq (t : Int) : InvoiceReq :=
  ⟨"John Doe", "john@x.com", "12 Main Street", 1, 10, some 1, [⟨"Work", 1, t⟩], t⟩

/-- Initial state: client 1 with zero aggregates, no invoices. -/
def cexSt : State := ⟨[cexClient], [], []⟩

/-- Five operations, all issued by the owner (user 1) and all referencing
client 1.  The third create reuses invoice id 2 (ids are assigned as
`invoices.length + 1`, and a deletion has shrunk the collection), and the
final delete then removes both id-2 invoices while decrementing the client's
aggregates only once. -/
def cexOps : List LedgerOp :=
  [.create 1 0 (cexReq 10), .create 1 0 (cexReq 20), .del 1 1,
   .create 1 0 (cexReq 30), .del 1 2]

/-- The inductive consistency invariant for the client with id `cid`, owned by
`uid₀`: there is exactly one stored client with this id, it belongs to `uid₀`,
its denormalized aggregates match the stored invoices referencing it, and the
stored invoice ids are pairwise distinct. -/
structure LedgerInv (cid uid₀ : Nat) (st : State) : Prop where
  client : ∃ c, st.clients.filter (fun x => x.id == cid) = [c] ∧
    c.userId = uid₀ ∧
    c.invoiceCount = some ((countFor cid st.invoices : Int)) ∧
    c.totalPaid = some (sumFor cid st.invoices)
  nodup : (st.invoices.map Invoice.id).Nodup

/-- The id `invoices.length + 1` that a create would assign right now does not
collide with a stored invoice id.  (This can fail after a deletion.) -/
def freshIdOK (st : State) : Prop :=
  ∀ i ∈ st.invoices, i.id ≠ st.invoices.length + 1

/-- Side conditions on one operation: a creation referencing the client must
come from the client's owner, and a creation must not reuse a stored id. -/
def stepOK (cid uid₀ : Nat) (st : State) : LedgerOp → Prop
  | .create uid _ r => (r.clientId = cid → uid = uid₀) ∧ freshIdOK st
  | .del _ _ => True

/-- The side conditions hold at every step of the sequence. -/
def opsOK (cid uid₀ : Nat) : State → List LedgerOp → Prop
  | _, [] => True
  | st, op :: ops => stepOK cid uid₀ st op ∧ opsOK cid uid₀ (applyOp st op) ops

-- Concrete data for witnesses of the conditional theorems.

/-- The empty store. -/
def emptySt : State := ⟨[], [], []⟩

/-- An injective stand-in for the bcrypt hash in witnesses: prepends a hash
mark, so no string is its own image. -/
def hashW (s : String) : String := ⟨'#' :: s.data⟩

/-- A stored user for the login witnesses. -/
def wUser : User :=
  ⟨1, "Demo User", "demo@x.com", "#hashedpw", "0123456789", "1 Main Street", 0⟩

/-- A store holding exactly `wUser`. -/
def wUserSt : State := ⟨[], [], [wUser]⟩

/-- A registration request passing the validation chain. -/
def wRegReq : RegisterReq :=
  ⟨"Jane Doe", "Jane@X.com", "secret1", "0123456789", "1 Main Street"⟩

/-- The same registrant with the email differing only in letter case. -/
def wRegReq2 : RegisterReq :=
  ⟨"Jane Doe", "JANE@x.COM", "secret1", "0123456789", "1 Main Street"⟩

/-- A client owned by a different user (user 2). -/
def c7other : Client :=
  ⟨2, 2, "Bravo LLC", "bravo@y.com", "2 Side Street", some 0, some 0, 0⟩

/-- A store holding clients of two different owners. -/
def c7St : State := ⟨[cexClient, c7other], [], []⟩

/-- A store whose client carries drifted aggregates (5 invoices, 500 paid)
while no invoice at all is stored. -/
def driftSt : State :=
  ⟨[⟨1, 1, "Acme Co", "acme@x.com", "1 Main Street", some 5, some 500, 0⟩], [], []⟩

/-- A store whose client lacks the aggregate fields entirely. -/
def absentSt : State :=
  ⟨[⟨1, 2, "NoAgg Co", "noagg@x.com", "9 Low Road", none, none, 0⟩], [], []⟩

-- Helper lemmas about the find-then-mutate idiom and the aggregate sums.

theorem updateFirst_eq_self {α : Type} {p : α → Bool} {f : α → α} :
    ∀ l : List α, (∀ x ∈ l, p x = false) → updateFirst p f l = l
  | [], _ => rfl
  | x :: xs, h => by
    rw [updateFirst, if_neg (by simp [h x (List.mem_cons_self x xs)]),
      updateFirst_eq_self xs fun y hy => h y (List.mem_cons_of_mem x hy)]

theorem filter_updateFirst_none {α : Type} {p q : α → Bool} {f : α → α}
    (hpq : ∀ x, p x = true → q x = false) (hf : ∀ x, q (f x) = q x) :
    ∀ l : List α, (updateFirst p f l).filter q = l.filter q
  | [] => rfl
  | x :: xs => by
    cases hp : p x with
    | true =>
      have hqx : q x = false := hpq x hp
      have hqf : q (f x) = false := by rw [hf x]; exact hqx
      rw [updateFirst, if_pos hp]
      simp [List.filter_cons, hqx, hqf]
    | false =>
      rw [updateFirst, if_neg (by simp [hp])]
      simp only [List.filter_cons, filter_updateFirst_none hpq hf xs]

theorem filter_updateFirst_single {α : Type} {p q : α → Bool} {f : α → α} {c : α}
    (hpq : ∀ x, p x = true → q x = true) (hpc : p c = true) (hfc : q (f c) = true) :
    ∀ l : List α, l.filter q = [c] → (updateFirst p f l).filter q = [f c]
  | [], h => by simp at h
  | x :: xs, h => by
    cases hp : p x with
    | true =>
      have hqx : q x = true := hpq x hp
      obtain ⟨hxc, hxs⟩ : x = c ∧ xs.filter q = [] := by
        simpa [List.filter_cons, hqx] using h
      subst hxc
      rw [updateFirst, if_pos hp]
      simp [List.filter_cons, hfc, hxs]
    | false =>
      cases hq : q x with
      | true =>
        obtain ⟨hxc, -⟩ : x = c ∧ xs.filter q = [] := by
          simpa [List.filter_cons, hq] using h
        subst hxc
        simp [hpc] at hp
      | false =>
        have h' : xs.filter q = [c] := by simpa [List.filter_cons, hq] using h
        rw [updateFirst, if_neg (by simp [hp])]
        simpa [List.filter_cons, hq] using filter_updateFirst_single hpq hpc hfc xs h'

theorem countFor_cons (cid : Nat) (x : Invoice) (l : List Invoice) :
    countFor cid (x :: l) =
      (if refsClient cid x then 1 else 0) + countFor cid l := by
  cases hx : refsClient cid x <;>
    simp [countFor, List.filter_cons, hx, Nat.add_comm]

theorem sumFor_cons (cid : Nat) (x : Invoice) (l : List Invoice) :
    sumFor cid (x :: l) =
      (if refsClient cid x then x.total else 0) + sumFor cid l := by
  cases hx : refsClient cid x <;>
    simp [sumFor, List.filter_cons, hx]

theorem countFor_append (cid : Nat) (l1 l2 : List Invoice) :
    countFor cid (l1 ++ l2) = countFor cid l1 + countFor cid l2 := by
  simp [countFor, List.filter_append]

theorem sumFor_append (cid : Nat) (l1 l2 : List Invoice) :
    sumFor cid (l1 ++ l2) = sumFor cid l1 + sumFor cid l2 := by
  simp [sumFor, List.filter_append]

theorem remove_decomp (n : Nat) :
    ∀ (l : List Invoice), (l.map Invoice.id).Nodup →
      ∀ inv ∈ l, inv.id = n →
      ∃ l1 l2, l = l1 ++ inv :: l2 ∧ l.filter (fun i => !(i.id == n)) = l1 ++ l2
  | [], _, inv, hm, _ => absurd hm (List.not_mem_nil inv)
  | x :: xs, hn, inv, hm, hid => by
    rw [List.map_cons, List.nodup_cons] at hn
    cases hx : x.id == n with
    | true =>
      have hxn : x.id = n := by simpa using hx
      have hxinv : x = inv := by
        cases hm with
        | head => rfl
        | tail _ hmem =>
          exact absurd (List.mem_map_of_mem Invoice.id hmem)
            (by rw [hid, ← hxn]; exact hn.1)
      refine ⟨[], xs, by rw [hxinv]; rfl, ?_⟩
      rw [List.filter_cons]
      have hxs : xs.filter (fun i => !(i.id == n)) = xs :=
        List.filter_eq_self.mpr fun a ha => by
          have : a.id ≠ n := fun hh =>
            hn.1 (by rw [hxn, ← hh]; exact List.mem_map_of_mem Invoice.id ha)
          simp [this]
      simp [hx, hxs]
    | false =>
      have hmem : inv ∈ xs := by
        cases hm with
        | head => rw [hid] at hx; simp at hx
        | tail _ h' => exact h'
      obtain ⟨l1, l2, he, hf⟩ := remove_decomp n xs hn.2 inv hmem hid
      exact ⟨x :: l1, l2, by simp [he], by rw [List.filter_cons]; simp [hx, hf]⟩


theorem bandL {a b : Bool} (h : (a && b) = true) : a = true := by
  cases a <;> simp_all

theorem bandR {a b : Bool} (h : (a && b) = true) : b = true := by
  cases a <;> simp_all

theorem bandI {a b : Bool} (h1 : a = true) (h2 : b = true) : (a && b) = true := by
  simp [h1, h2]

theorem createInvoice_state (uid now : Nat) (r : InvoiceReq) (st : State)
    (hv : validInvoice r = true) :
    ((createInvoice uid now r st).2.invoices =
        st.invoices ++ [mkInvoice uid now (st.invoices.length + 1) r]) ∧
    ((createInvoice uid now r st).2.clients =
        updateFirst (fun x => x.id == r.clientId && x.userId == uid)
          (bumpClient r.total) st.clients) ∧
    (createInvoice uid now r st).2.users = st.users := by
  refine ⟨?_, ?_, ?_⟩ <;> simp [createInvoice, hv, mkInvoice]

theorem deleteInvoice_state (uid iid : Nat) (st : State) (inv : Invoice)
    (hfind : st.invoices.find? (fun i => i.id == iid && i.userId == uid) = some inv) :
    ((deleteInvoice uid iid st).2.invoices =
        st.invoices.filter (fun i => !(i.id == iid))) ∧
    ((deleteInvoice uid iid st).2.clients =
        updateFirst (fun x => x.id == inv.clientId)
          (dropClient inv.total) st.clients) ∧
    (deleteInvoice uid iid st).2.users = st.users := by
  refine ⟨?_, ?_, ?_⟩ <;> simp [deleteInvoice, hfind]

theorem ledger_step {cid uid₀ : Nat} {st : State} {op : LedgerOp}
    (hInv : LedgerInv cid uid₀ st) (hok : stepOK cid uid₀ st op) :
    LedgerInv cid uid₀ (applyOp st op) := by
  obtain ⟨c, hfil, hcu, hcc, hct⟩ := hInv.client
  have hcmem : c ∈ st.clients.filter (fun x => x.id == cid) := by
    rw [hfil]; exact List.mem_singleton_self c
  have hcq : (c.id == cid) = true := (List.mem_filter.mp hcmem).2
  cases op with
  | create uid now r =>
    show LedgerInv cid uid₀ (createInvoice uid now r st).2
    cases hv : validInvoice r with
    | false =>
      have hid : (createInvoice uid now r st).2 = st := by
        simp [createInvoice, hv]
      rw [hid]; exact ⟨⟨c, hfil, hcu, hcc, hct⟩, hInv.nodup⟩
    | true =>
      obtain ⟨hsI, hsC, hsU⟩ := createInvoice_state uid now r st hv
      have hnodup : ((createInvoice uid now r st).2.invoices.map Invoice.id).Nodup := by
        rw [hsI, List.map_append, List.nodup_append]
        refine ⟨hInv.nodup, List.nodup_singleton _, ?_⟩
        intro a ha hb
        obtain ⟨i, hi, hia⟩ := List.mem_map.mp ha
        have hb' : a = st.invoices.length + 1 := by simpa [mkInvoice] using hb
        exact hok.2 i hi (hia.trans hb')
      by_cases hr : r.clientId = cid
      · subst hr
        have huid : uid = uid₀ := hok.1 rfl
        refine ⟨⟨bumpClient r.total c, ?_, hcu, ?_, ?_⟩, hnodup⟩
        · rw [hsC]
          refine filter_updateFirst_single ?_ ?_ ?_ st.clients hfil
          · exact fun x hx => bandL hx
          · exact bandI hcq (by simp [hcu, huid])
          · exact hcq
        · rw [hsI, countFor_append]
          have h1 : countFor r.clientId
              [mkInvoice uid now (st.invoices.length + 1) r] = 1 := by
            simp [countFor, List.filter_cons, refsClient, mkInvoice]
          rw [h1]
          show Option.map (· + 1) c.invoiceCount = _
          rw [hcc]
          simp
        · rw [hsI, sumFor_append]
          have h1 : sumFor r.clientId
              [mkInvoice uid now (st.invoices.length + 1) r] = r.total := by
            simp [sumFor, List.filter_cons, refsClient, mkInvoice]
          rw [h1]
          show Option.map (· + r.total) c.totalPaid = _
          rw [hct]
          simp
      · refine ⟨⟨c, ?_, hcu, ?_, ?_⟩, hnodup⟩
        · rw [hsC]
          have hnone : (updateFirst (fun x => x.id == r.clientId && x.userId == uid)
              (bumpClient r.total) st.clients).filter (fun x => x.id == cid) =
              st.clients.filter (fun x => x.id == cid) := by
            refine filter_updateFirst_none ?_ ?_ st.clients
            · exact fun x hx => by
                have h1 : x.id = r.clientId := by simpa using bandL hx
                simp [h1, hr]
            · exact fun x => rfl
          rw [hnone]
          exact hfil
        · rw [hsI, countFor_append]
          have h1 : countFor cid
              [mkInvoice uid now (st.invoices.length + 1) r] = 0 := by
            simp [countFor, List.filter_cons, refsClient, mkInvoice, hr]
          rw [h1]
          simpa using hcc
        · rw [hsI, sumFor_append]
          have h1 : sumFor cid
              [mkInvoice uid now (st.invoices.length + 1) r] = 0 := by
            simp [sumFor, List.filter_cons, refsClient, mkInvoice, hr]
          rw [h1]
          simpa using hct
  | del uid iid =>
    show LedgerInv cid uid₀ (deleteInvoice uid iid st).2
    cases hfind : st.invoices.find? (fun i => i.id == iid && i.userId == uid) with
    | none =>
      have hid : (deleteInvoice uid iid st).2 = st := by
        simp [deleteInvoice, hfind]
      rw [hid]; exact ⟨⟨c, hfil, hcu, hcc, hct⟩, hInv.nodup⟩
    | some inv =>
      obtain ⟨hsI, hsC, hsU⟩ := deleteInvoice_state uid iid st inv hfind
      have hpi := List.find?_some hfind
      have hmem := List.mem_of_find?_eq_some hfind
      have hiid : inv.id = iid := by simpa using bandL hpi
      obtain ⟨l1, l2, hdec, hflt⟩ :=
        remove_decomp iid st.invoices hInv.nodup inv hmem hiid
      have hnodup2 : ((deleteInvoice uid iid st).2.invoices.map Invoice.id).Nodup := by
        rw [hsI]
        exact List.Nodup.sublist
          (List.Sublist.map _ (List.filter_sublist _)) hInv.nodup
      have hcount : countFor cid st.invoices =
          countFor cid (l1 ++ l2) + (if refsClient cid inv then 1 else 0) := by
        rw [hdec, countFor_append, countFor_append, countFor_cons]
        cases refsClient cid inv <;> (simp; try omega)
      have hsum : sumFor cid st.invoices =
          sumFor cid (l1 ++ l2) + (if refsClient cid inv then inv.total else 0) := by
        rw [hdec, sumFor_append, sumFor_append, sumFor_cons]
        cases refsClient cid inv <;> (simp; try ring)
      by_cases hrc : inv.clientId = cid
      · have hrefs : refsClient cid inv = true := by simp [refsClient, hrc]
        simp only [hrefs, if_true] at hcount hsum
        refine ⟨⟨dropClient inv.total c, ?_, hcu, ?_, ?_⟩, hnodup2⟩
        · rw [hsC]
          refine filter_updateFirst_single ?_ ?_ ?_ st.clients hfil
          · exact fun x hx => by rwa [hrc] at hx
          · rw [hrc]; exact hcq
          · exact hcq
        · rw [hsI, hflt]
          show Option.map (· - 1) c.invoiceCount = _
          rw [hcc, hcount]
          simp
        · rw [hsI, hflt]
          show Option.map (· - inv.total) c.totalPaid = _
          rw [hct, hsum]
          simp
      · have hrefs : refsClient cid inv = false := by simp [refsClient, hrc]
        simp only [hrefs, Bool.false_eq_true, if_false, Nat.add_zero, add_zero]
          at hcount hsum
        refine ⟨⟨c, ?_, hcu, ?_, ?_⟩, hnodup2⟩
        · rw [hsC]
          have hnone : (updateFirst (fun x => x.id == inv.clientId)
              (dropClient inv.total) st.clients).filter (fun x => x.id == cid) =
              st.clients.filter (fun x => x.id == cid) := by
            refine filter_updateFirst_none ?_ ?_ st.clients
            · exact fun x hx => by
                have h1 : x.id = inv.clientId := by simpa using hx
                simp [h1, hrc]
            · exact fun x => rfl
          rw [hnone]
          exact hfil
        · rw [hsI, hflt, ← hcount]; exact hcc
        · rw [hsI, hflt, ← hsum]; exact hct

theorem ledger_ops {cid uid₀ : Nat} :
    ∀ (ops : List LedgerOp) (st : State), LedgerInv cid uid₀ st →
      opsOK cid uid₀ st ops → LedgerInv cid uid₀ (applyOps st ops)
  | [], _, h, _ => h
  | op :: ops, st, h, hok => ledger_ops ops _ (ledger_step h hok.1) hok.2

theorem opsOK_of_append {cid uid₀ : Nat} :
    ∀ (l1 l2 : List LedgerOp) (st : State),
      opsOK cid uid₀ st (l1 ++ l2) → opsOK cid uid₀ st l1
  | [], _, _, _ => True.intro
  | op :: l1, l2, st, h => ⟨h.1, opsOK_of_append l1 l2 _ h.2⟩

theorem all_of_filter_singleton {α : Type} {q : α → Bool} {c : α} {l : List α}
    {P : α → Bool} (h : l.filter q = [c]) (hc : P c = true) :
    (l.all fun x => !(q x) || P x) = true := by
  rw [List.all_eq_true]
  intro x hx
  cases hq : q x with
  | false => simp [hq]
  | true =>
    have hxc : x = c := by
      have hm : x ∈ l.filter q := List.mem_filter.mpr ⟨hx, hq⟩
      rw [h] at hm
      simpa using hm
    subst hxc
    simp [hq, hc]

/-- C1 is refuted as the spec states it: starting from a consistent store
(client 1 owned by user 1, aggregates zero, no invoices), the five operations
of `cexOps` — all issued by the owner, all referencing client 1, with no
interleaved process failure — leave `invoiceCount = 1` and `totalPaid = 30`
although no invoice referencing the client remains: invoice ids are assigned
as `invoices.length + 1`, so a create after a delete reuses a live id, and
the final delete removes both same-id invoices while decrementing the
aggregates only once. -/
theorem C1_counterexample :
    ledgerOK 1 cexSt = true ∧ ledgerOK 1 (applyOps cexSt cexOps) = false :=
  ⟨by decide, by decide⟩

/-- C1 (amended): after any prefix of a sequence of invoice creations and
deletions, the client's stored `totalPaid` equals the sum of the totals of
the currently-undeleted invoices referencing it and `invoiceCount` equals
their count, provided additionally that (a) every creation referencing the
client is issued by the client's owner, and (b) no creation reuses a stored
invoice id (`freshIdOK`), the store having pairwise-distinct invoice ids to
begin with. -/
theorem C1_ledger_invariant (cid uid₀ : Nat) (st : State) (l1 l2 : List LedgerOp)
    (hInv : LedgerInv cid uid₀ st) (hok : opsOK cid uid₀ st (l1 ++ l2)) :
    ledgerOK cid (applyOps st l1) = true := by
  obtain ⟨c, hfil, -, hcc, hct⟩ :=
    (ledger_ops l1 st hInv (opsOK_of_append l1 l2 st hok)).client
  show ((applyOps st l1).clients.all fun x => !(x.id == cid) ||
    (x.invoiceCount == some ((countFor cid (applyOps st l1).invoices : Int)) &&
     x.totalPaid == some (sumFor cid (applyOps st l1).invoices))) = true
  refine all_of_filter_singleton hfil ?_
  rw [hcc, hct]
  simp

/-- Witness for C1: one owner-issued creation (with a later deletion pending
in the sequence) keeps the ledger consistent. -/
theorem C1_ledger_invariant_witness :
    ledgerOK 1 (applyOps cexSt [LedgerOp.create 1 0 (cexReq 10)]) = true :=
  C1_ledger_invariant 1 1 cexSt [.create 1 0 (cexReq 10)] [.del 1 1]
    ⟨⟨cexClient, by decide, rfl, by decide, by decide⟩, by decide⟩
    ⟨⟨fun _ => rfl, fun i hi => absurd hi (List.not_mem_nil i)⟩, True.intro, True.intro⟩

theorem find?_append_right {α : Type} (p : α → Bool) (a : α) :
    ∀ l : List α, l.find? p = none → p a = true → (l ++ [a]).find? p = some a := by
  intro l hnone hp
  induction l with
  | nil => simp [List.find?, hp]
  | cons x xs ih =>
    cases hx : p x with
    | true => simp [List.find?, hx] at hnone
    | false =>
      rw [List.find?] at hnone
      rw [hx] at hnone
      rw [List.cons_append, List.find?, hx]
      exact ih hnone

/-- C2: deleting an invoice id that is absent — or present but not owned by
the caller — answers 404 "Invoice not found" and leaves the clients, invoices
and users collections unchanged (no write occurs at all). -/
theorem C2_delete_missing_invoice (uid iid : Nat) (st : State)
    (h : ∀ i ∈ st.invoices, ¬(i.id = iid ∧ i.userId = uid)) :
    (deleteInvoice uid iid st).1 = DeleteResult.err ⟨404, "Invoice not found"⟩ ∧
    (deleteInvoice uid iid st).2.clients = st.clients ∧
    (deleteInvoice uid iid st).2.invoices = st.invoices ∧
    (deleteInvoice uid iid st).2.users = st.users := by
  have hf : st.invoices.find? (fun i => i.id == iid && i.userId == uid) = none := by
    rw [List.find?_eq_none]
    intro i hi
    simpa using h i hi
  refine ⟨?_, ?_, ?_, ?_⟩ <;> simp [deleteInvoice, hf]

/-- Witness for C2: user 1 deleting the absent invoice id 1. -/
theorem C2_delete_missing_invoice_witness :
    (deleteInvoice 1 1 cexSt).1 = DeleteResult.err ⟨404, "Invoice not found"⟩ ∧
    (deleteInvoice 1 1 cexSt).2.clients = cexSt.clients ∧
    (deleteInvoice 1 1 cexSt).2.invoices = cexSt.invoices ∧
    (deleteInvoice 1 1 cexSt).2.users = cexSt.users :=
  C2_delete_missing_invoice 1 1 cexSt (fun i hi => absurd hi (List.not_mem_nil i))

/-- C3: every protected route (clients, invoices, dashboard) runs behind
`authenticateToken`; when credential verification fails — token missing,
malformed, badly signed or expired — the request is rejected with an error,
the state is unchanged and no collection is read or written. -/
theorem C3_reject_before_data_access (mac : Payload → Nat) (now : Nat)
    (tok : Option Token) (r : ProtRoute) (st : State)
    (h : verifyToken mac tok now = none) :
    (serve mac now tok r st).1.isSome = true ∧
    (serve mac now tok r st).2.1 = st ∧
    (serve mac now tok r st).2.2 = [] := by
  cases tok with
  | none => refine ⟨?_, ?_, ?_⟩ <;> simp [serve]
  | some t => refine ⟨?_, ?_, ?_⟩ <;> simp [serve, h]

/-- Witness for C3: a request with no token at all against the client list. -/
theorem C3_reject_before_data_access_witness :
    (serve (fun _ => 0) 0 none ProtRoute.getClients cexSt).1.isSome = true ∧
    (serve (fun _ => 0) 0 none ProtRoute.getClients cexSt).2.1 = cexSt ∧
    (serve (fun _ => 0) 0 none ProtRoute.getClients cexSt).2.2 = [] :=
  C3_reject_before_data_access (fun _ => 0) 0 none ProtRoute.getClients cexSt rfl

/-- C4: a successful registration appends exactly one user whose stored
password field is `hash(rawPassword)` (bcrypt, one-way and salted, modelled
abstractly); under one-wayness the stored password field differs from the raw
password, which is therefore never written to the users collection. -/
theorem C4_register_stores_hash (hash : String → String) (mac : Payload → Nat)
    (now : Nat) (r : RegisterReq) (st : State)
    (hv : validRegister r = true)
    (hnew : st.users.find? (fun u => u.email == normalizeEmail r.email) = none)
    (hone : ∀ s, hash s ≠ s) :
    (register hash mac now r st).2.users =
      st.users ++ [⟨st.users.length + 1, trimStr r.name, normalizeEmail r.email,
        hash r.password, r.contactNumber, trimStr r.address, now⟩] ∧
    hash r.password ≠ r.password := by
  refine ⟨?_, hone r.password⟩
  simp [register, hv, hnew]

theorem hashW_ne (s : String) : hashW s ≠ s := by
  intro h
  have hlen := congrArg (fun t => t.data.length) h
  simp [hashW] at hlen

/-- Witness for C4: registering Jane with the hash-mark stand-in hash. -/
theorem C4_register_stores_hash_witness :
    (register hashW (fun _ => 0) 0 wRegReq emptySt).2.users =
      emptySt.users ++ [⟨emptySt.users.length + 1, trimStr wRegReq.name,
        normalizeEmail wRegReq.email, hashW wRegReq.password,
        wRegReq.contactNumber, trimStr wRegReq.address, 0⟩] ∧
    hashW wRegReq.password ≠ wRegReq.password :=
  C4_register_stores_hash hashW (fun _ => 0) 0 wRegReq emptySt
    (by decide) rfl hashW_ne

/-- C5: when two registration requests carry emails that agree after case
normalization (in particular, emails differing only in letter case) and the
first succeeds, the second is rejected with 409 Conflict and the store —
users collection included — is left exactly as the first registration left
it. -/
theorem C5_case_insensitive_conflict (hash : String → String)
    (mac : Payload → Nat) (n1 n2 : Nat) (r1 r2 : RegisterReq) (st : State)
    (h1 : validRegister r1 = true) (h2 : validRegister r2 = true)
    (hcase : normalizeEmail r1.email = normalizeEmail r2.email)
    (hfree : st.users.find? (fun u => u.email == normalizeEmail r1.email) = none) :
    (register hash mac n2 r2 (register hash mac n1 r1 st).2).1 =
      RegisterResult.err ⟨409, "User already exists"⟩ ∧
    (register hash mac n2 r2 (register hash mac n1 r1 st).2).2 =
      (register hash mac n1 r1 st).2 := by
  have hs1 : (register hash mac n1 r1 st).2 =
      {st with users := st.users ++ [⟨st.users.length + 1, trimStr r1.name,
        normalizeEmail r1.email, hash r1.password, r1.contactNumber,
        trimStr r1.address, n1⟩]} := by
    simp [register, h1, hfree]
  have hfind2 : (register hash mac n1 r1 st).2.users.find?
      (fun u => u.email == normalizeEmail r2.email) =
      some ⟨st.users.length + 1, trimStr r1.name, normalizeEmail r1.email,
        hash r1.password, r1.contactNumber, trimStr r1.address, n1⟩ := by
    rw [hs1, ← hcase]
    exact find?_append_right _ _ st.users hfree (by simp)
  have key : register hash mac n2 r2 (register hash mac n1 r1 st).2 =
      (RegisterResult.err ⟨409, "User already exists"⟩,
        (register hash mac n1 r1 st).2) := by
    generalize hgen : (register hash mac n1 r1 st).2 = st1 at hfind2
    simp [register, h2, hfind2]
  exact ⟨by rw [key], by rw [key]⟩

/-- Witness for C5: "Jane@X.com" then "JANE@x.COM" on an empty store. -/
theorem C5_case_insensitive_conflict_witness :
    (register hashW (fun _ => 0) 0 wRegReq2 (register hashW (fun _ => 0) 0 wRegReq emptySt).2).1 =
      RegisterResult.err ⟨409, "User already exists"⟩ ∧
    (register hashW (fun _ => 0) 0 wRegReq2 (register hashW (fun _ => 0) 0 wRegReq emptySt).2).2 =
      (register hashW (fun _ => 0) 0 wRegReq emptySt).2 :=
  C5_case_insensitive_conflict hashW (fun _ => 0) 0 0 wRegReq wRegReq2 emptySt
    (by decide) (by decide) (by decide) rfl

/-- C6: login answers the identical 401 "Invalid credentials" error whether
the (normalized) email is unknown or the user exists but the password fails
verification against the stored hash — the two failure causes are
indistinguishable to the caller. -/
theorem C6_login_indistinguishable (cmp : String → String → Bool)
    (mac : Payload → Nat) (now : Nat) (st : State)
    (e1 p1 e2 p2 : String) (u : User)
    (hv1 : isEmailB e1 = true) (hl1 : 6 ≤ strLen p1)
    (hv2 : isEmailB e2 = true) (hl2 : 6 ≤ strLen p2)
    (hunknown : st.users.find? (fun x => x.email == normalizeEmail e1) = none)
    (hknown : st.users.find? (fun x => x.email == normalizeEmail e2) = some u)
    (hbad : cmp p2 u.password = false) :
    login cmp mac now e1 p1 st = LoginResult.err ⟨401, "Invalid credentials"⟩ ∧
    login cmp mac now e2 p2 st = LoginResult.err ⟨401, "Invalid credentials"⟩ ∧
    login cmp mac now e1 p1 st = login cmp mac now e2 p2 st := by
  refine ⟨?_, ?_, ?_⟩ <;>
    simp [login, hv1, hl1, hv2, hl2, hunknown, hknown, hbad]

/-- Witness for C6: an unknown address and the demo user with a rejected
password both get the same 401. -/
theorem C6_login_indistinguishable_witness :
    login (fun _ _ => false) (fun _ => 0) 0 "ghost@x.com" "secret1" wUserSt =
      LoginResult.err ⟨401, "Invalid credentials"⟩ ∧
    login (fun _ _ => false) (fun _ => 0) 0 "demo@x.com" "secret2" wUserSt =
      LoginResult.err ⟨401, "Invalid credentials"⟩ ∧
    login (fun _ _ => false) (fun _ => 0) 0 "ghost@x.com" "secret1" wUserSt =
      login (fun _ _ => false) (fun _ => 0) 0 "demo@x.com" "secret2" wUserSt :=
  C6_login_indistinguishable (fun _ _ => false) (fun _ => 0) 0 wUserSt
    "ghost@x.com" "secret1" "demo@x.com" "secret2" wUser
    (by decide) (by decide) (by decide) (by decide) (by decide) (by decide) rfl

/-- C7: the client list endpoint performs no owner filter — with clients of
users 1 and 2 stored, caller 1 receives both, including user 2's client; the
owner-filtered list would be `[cexClient]` only.  (Every sibling protected
read in the same file — invoice list, dashboard — does filter by `userId`,
and the spec requires cross-user reads to be rejected, so this is a slip in
the code.) -/
theorem C7_list_clients_unfiltered :
    listClients 1 c7St = [cexClient, c7other] ∧
    c7other.userId ≠ 1 ∧
    c7St.clients.filter (fun c => c.userId == 1) = [cexClient] :=
  ⟨rfl, by decide, by decide⟩

/-- C8 is refuted as stated: with no clients stored at all, a field-valid
create referencing client id 1 is not rejected — it answers success and
persists the invoice with a dangling `clientId`. -/
theorem C8_counterexample :
    (createInvoice 1 0 (cexReq 10) emptySt).1 =
      InvoiceCreateResult.ok (mkInvoice 1 0 1 (cexReq 10)) ∧
    (createInvoice 1 0 (cexReq 10) emptySt).2.invoices = [mkInvoice 1 0 1 (cexReq 10)] ∧
    emptySt.clients = [] :=
  ⟨by decide, by decide, rfl⟩

/-- C8 (amended): invoice creation validates only field shape (`clientId`
need merely be an integer ≥ 1, existence is not checked): every field-valid
request succeeds, the new invoice's id is `count(all existing invoices) + 1`
and it is appended to the collection; when no stored client matches the
request's `clientId` and the caller, the clients collection is left
untouched (the aggregate update is skipped). -/
theorem C8_create_assigns_next_id (uid now : Nat) (r : InvoiceReq) (st : State)
    (hv : validInvoice r = true) :
    (createInvoice uid now r st).1 =
      InvoiceCreateResult.ok (mkInvoice uid now (st.invoices.length + 1) r) ∧
    (createInvoice uid now r st).2.invoices =
      st.invoices ++ [mkInvoice uid now (st.invoices.length + 1) r] ∧
    ((∀ c ∈ st.clients, (c.id == r.clientId && c.userId == uid) = false) →
      (createInvoice uid now r st).2.clients = st.clients) := by
  refine ⟨by simp [createInvoice, hv], (createInvoice_state uid now r st hv).1, ?_⟩
  intro hnone
  rw [(createInvoice_state uid now r st hv).2.1]
  exact updateFirst_eq_self st.clients hnone

/-- Witness for C8 (amended): creating against the empty store. -/
theorem C8_create_assigns_next_id_witness :
    (createInvoice 1 0 (cexReq 10) emptySt).1 =
      InvoiceCreateResult.ok (mkInvoice 1 0 1 (cexReq 10)) ∧
    (createInvoice 1 0 (cexReq 10) emptySt).2.invoices =
      emptySt.invoices ++ [mkInvoice 1 0 1 (cexReq 10)] ∧
    (createInvoice 1 0 (cexReq 10) emptySt).2.clients = emptySt.clients :=
  have h := C8_create_assigns_next_id 1 0 (cexReq 10) emptySt (by decide)
  ⟨h.1, h.2.1, h.2.2 (fun c hc => absurd hc (List.not_mem_nil c))⟩

/-- C9: a credential issued at `t` embeds the absolute expiry `t + 24h`;
verification succeeds one hour after issuance, fails 25 hours after issuance,
fails whenever the signature does not match the payload, and fails on a
missing or malformed token. -/
theorem C9_token_lifetime (mac : Payload → Nat) (uid : Nat) (email : String) (t : Nat) :
    verifyToken mac (some (signToken mac uid email t)) (t + 3600) =
      some ⟨uid, email, t + 24 * 3600⟩ ∧
    verifyToken mac (some (signToken mac uid email t)) (t + 25 * 3600) = none ∧
    (∀ tok : Token, tok.sig ≠ mac tok.payload →
      ∀ n : Nat, verifyToken mac (some tok) n = none) ∧
    (∀ n : Nat, verifyToken mac none n = none) := by
  refine ⟨?_, ?_, ?_, ?_⟩
  · show (if mac ⟨uid, email, t + 24 * 3600⟩ = mac ⟨uid, email, t + 24 * 3600⟩ ∧
        t + 3600 < t + 24 * 3600
      then some (⟨uid, email, t + 24 * 3600⟩ : Payload) else none) =
      some ⟨uid, email, t + 24 * 3600⟩
    rw [if_pos ⟨rfl, by omega⟩]
  · show (if mac ⟨uid, email, t + 24 * 3600⟩ = mac ⟨uid, email, t + 24 * 3600⟩ ∧
        t + 25 * 3600 < t + 24 * 3600
      then some (⟨uid, email, t + 24 * 3600⟩ : Payload) else none) = none
    rw [if_neg (fun h => absurd h.2 (by omega))]
  · intro tok hsig n
    show (if tok.sig = mac tok.payload ∧ n < tok.payload.exp
      then some tok.payload else none) = none
    rw [if_neg (fun h => hsig h.1)]
  · intro n
    rfl

/-- Witness for C9 at issuance time 0 with a concrete signing function. -/
theorem C9_token_lifetime_witness :
    verifyToken (fun p => p.id) (some (signToken (fun p => p.id) 1 "u@x.com" 0)) 3600 =
      some ⟨1, "u@x.com", 24 * 3600⟩ ∧
    verifyToken (fun p => p.id) (some (signToken (fun p => p.id) 1 "u@x.com" 0)) (25 * 3600) = none ∧
    verifyToken (fun p => p.id) (some ⟨⟨1, "u@x.com", 24 * 3600⟩, 5⟩) 10 = none ∧
    verifyToken (fun p => p.id) none 10 = none :=
  have h := C9_token_lifetime (fun p => p.id) 1 "u@x.com" 0
  ⟨h.1, h.2.1, h.2.2.1 ⟨⟨1, "u@x.com", 24 * 3600⟩, 5⟩ (by decide) 10, h.2.2.2 10⟩

/-- C10: the dashboard is read-only — serving it leaves the state unchanged
and its access trace holds reads only — and the per-client summary copies the
stored denormalized `invoiceCount`/`totalPaid` fields (an absent field read
as 0) instead of recomputing them from the invoices: on a store whose client
claims 5 invoices and 500 paid while no invoice exists, the summary reports
the stored 5 and 500, and on a store whose client lacks the fields it
reports 0 and 0. -/
theorem C10_dashboard_read_only (uid now : Nat) (st : State) :
    (dispatch uid now ProtRoute.getDashboard st).1 = st ∧
    (dispatch uid now ProtRoute.getDashboard st).2 =
      [Access.readClients, Access.readInvoices] ∧
    (dashboard uid st).clientSummary =
      (st.clients.filter (fun c => c.userId == uid)).map
        (fun c => ⟨c.name, c.email, c.invoiceCount.getD 0, c.totalPaid.getD 0⟩) ∧
    (dashboard 1 driftSt).clientSummary = [⟨"Acme Co", "acme@x.com", 5, 500⟩] ∧
    countFor 1 driftSt.invoices = 0 ∧
    (dashboard 2 absentSt).clientSummary = [⟨"NoAgg Co", "noagg@x.com", 0, 0⟩] :=
  ⟨rfl, rfl, rfl, by decide, by decide, by decide⟩
